import Mathlib

/-!
Shallow embedding of the transcript-processing core of
`youtube-transcript-extractor` (src/transcript_processor.py and
src/prompt_templates.py), together with proofs settling the frozen claims.

Python strings are modelled as `List Char`.  The Python `re` module is
modelled by a small backtracking matcher over a regex AST; the matcher
follows Python's leftmost search with greedy/lazy backtracking priority.
`json.loads` is Python standard library, not repository code; it is taken
as an abstract strict-decoder parameter `jsonLoads` of the normalizer.
-/

set_option maxRecDepth 10000

/-- Python strings are lists of characters. -/
abbrev Str := List Char

/-- Conversion from Lean string literals. -/
def pstr (s : String) : Str := s.toList

/-- The apostrophe character (written via its code point). -/
def quoteCh : Char := Char.ofNat 39

/-- Python whitespace for `str.strip` and the regex class `\s`
(space, tab, newline, carriage return, vertical tab, form feed). -/
def isPySpace (c : Char) : Bool :=
  c = ' ' ∨ c = '\t' ∨ c = '\n' ∨ c = '\r' ∨ c = '\x0b' ∨ c = '\x0c'

/-- Left part of Python `str.strip()`: drop leading whitespace. -/
def lstripL (s : Str) : Str := s.dropWhile isPySpace

/-- Right part of Python `str.strip()`: drop trailing whitespace. -/
def rstripL (s : Str) : Str := (s.reverse.dropWhile isPySpace).reverse

/-- Python `str.strip()`. -/
def pyStrip (s : Str) : Str := rstripL (lstripL s)

/-- Worker for `str.replace`, structurally recursive on a fuel that
bounds the number of scanning steps (each step advances by at least one
character, so `s.length + 1` can never run out). -/
def listReplaceGo (old new : Str) : Nat → Str → Str
  | 0, s => s
  | _ + 1, [] => []
  | fuel + 1, c :: rest =>
    if old ≠ [] ∧ old.isPrefixOf (c :: rest) then
      new ++ listReplaceGo old new fuel ((c :: rest).drop old.length)
    else
      c :: listReplaceGo old new fuel rest

/-- Python `str.replace(old, new)` (all non-overlapping occurrences,
left to right).  The repository only calls it with non-empty `old`. -/
def listReplaceAll (old new : Str) (s : Str) : Str :=
  listReplaceGo old new (s.length + 1) s

/-! ## A small backtracking regex engine

The AST covers exactly the constructs used by the patterns in
`transcript_processor.py`.  `mrun` enumerates the match alternatives of a
regex at one position in backtracking priority order (greedy
alternatives first for `starG`/`optG`, shortest first for `starL`), so
the head of the list is the match Python's engine would return. -/

inductive Reg where
  | eps
  | cls (p : Char → Bool)
  | lit (s : Str)
  | seq (a b : Reg)
  | alt (a b : Reg)
  | optG (a : Reg)
  | starG (a : Reg)
  | starL (a : Reg)
  | look (a : Reg)
  | grp (a : Reg)
  | bolM
  | eolM
  | eolS

/-- Matcher state: the remaining suffix of the subject, the character
just before it (for `^` in MULTILINE mode), and the content of capture
group 1 when it has been set. -/
structure MSt where
  rest : Str
  prev : Option Char
  cap : Option Str

/-- Structural size of a regex, used for the fuel bound. -/
def regSize : Reg → Nat
  | .eps | .bolM | .eolM | .eolS => 1
  | .cls _ => 1
  | .lit s => s.length + 1
  | .seq a b => regSize a + regSize b + 1
  | .alt a b => regSize a + regSize b + 1
  | .optG a => regSize a + 1
  | .starG a => regSize a + 1
  | .starL a => regSize a + 1
  | .look a => regSize a + 1
  | .grp a => regSize a + 1

/-- Match a literal at the current position. -/
def matchLit (s : Str) (st : MSt) : List MSt :=
  if s.isPrefixOf st.rest then
    [{ rest := st.rest.drop s.length,
       prev := match s.getLast? with
               | some c => some c
               | none => st.prev,
       cap := st.cap }]
  else []

/-- All ways a regex can match at the current position, in backtracking
priority order.  Each recursive call decreases `fuel` by one; along any
call path the regex argument either shrinks structurally or (for a star
re-entry) the remaining suffix strictly shrinks, so a path is never
longer than `(rest.length + 2) * (regSize r + 2)` and the fuel supplied
by `fuelFor` below is always sufficient. -/
def mrun : Nat → Reg → MSt → List MSt
  | 0, _, _ => []
  | fuel + 1, r, st =>
    match r with
    | .eps => [st]
    | .cls p =>
      match st.rest with
      | c :: cs => if p c then [{ rest := cs, prev := some c, cap := st.cap }] else []
      | [] => []
    | .lit s => matchLit s st
    | .seq a b => (mrun fuel a st).flatMap (fun st2 => mrun fuel b st2)
    | .alt a b => mrun fuel a st ++ mrun fuel b st
    | .optG a => mrun fuel a st ++ [st]
    | .starG a =>
      ((mrun fuel a st).flatMap (fun st2 =>
        if st2.rest.length < st.rest.length then mrun fuel (.starG a) st2 else [])) ++ [st]
    | .starL a =>
      st :: ((mrun fuel a st).flatMap (fun st2 =>
        if st2.rest.length < st.rest.length then mrun fuel (.starL a) st2 else []))
    | .look a => if (mrun fuel a st).isEmpty then [] else [st]
    | .grp a =>
      (mrun fuel a st).map (fun st2 =>
        { st2 with cap := some (st.rest.take (st.rest.length - st2.rest.length)) })
    | .bolM =>
      match st.prev with
      | none => [st]
      | some c => if c = '\n' then [st] else []
    | .eolM =>
      match st.rest with
      | [] => [st]
      | c :: _ => if c = '\n' then [st] else []
    | .eolS =>
      match st.rest with
      | [] => [st]
      | [c] => if c = '\n' then [st] else []
      | _ => []

/-- Sufficient fuel for `mrun` on a given suffix (see `mrun`). -/
def fuelFor (r : Reg) (rest : Str) : Nat := (rest.length + 2) * (regSize r + 2)

/-- Worker for `re.search`: try the match at each start position, left
to right.  The fuel bounds the number of start positions tried; each
step drops one character, so `rest.length + 1` can never run out. -/
def searchGo (r : Reg) : Nat → Str → Option Char → Option MSt
  | 0, _, _ => none
  | fuel + 1, rest, prev =>
    match (mrun (fuelFor r rest) r ⟨rest, prev, none⟩).head? with
    | some stE => some stE
    | none =>
      match rest with
      | [] => none
      | c :: rest2 => searchGo r fuel rest2 (some c)

/-- Python `re.search`: the match at the leftmost position where the
regex matches (the engine's first alternative there). -/
def searchMSt (r : Reg) (text : Str) (prev : Option Char) : Option MSt :=
  searchGo r (text.length + 1) text prev

/-- Whether `re.search` finds a match anywhere in `text`. -/
def reFound (r : Reg) (text : Str) : Bool := (searchMSt r text none).isSome

/-- `re.search(...).group(1)`: `none` when there is no match at all,
otherwise the content of capture group 1 (`[]` if the group is unset). -/
def reSearchCap (r : Reg) (text : Str) : Option Str :=
  (searchMSt r text none).map (fun st => st.cap.getD [])

/-- The last of the first `consumed` characters of `rest` (the character
before the continuation position after a match), used to keep `^`
anchors correct while scanning. -/
def lastConsumed (rest : Str) (consumed : Nat) (prev : Option Char) : Option Char :=
  match (rest.drop (consumed - 1)).head? with
  | some c => some c
  | none => prev

/-- Worker for `re.sub`: scan left to right, replace each leftmost
match and continue after its end.  (None of the repository's patterns
can match the empty string; the zero-width case is defensive.)  Each
step advances by at least one character, so fuel `rest.length + 1`
can never run out. -/
def subGo (r : Reg) (repl : Str) : Nat → Str → Option Char → Str
  | 0, rest, _ => rest
  | fuel + 1, rest, prev =>
    match (mrun (fuelFor r rest) r ⟨rest, prev, none⟩).head? with
    | some stE =>
      if rest.length - stE.rest.length = 0 then
        match rest with
        | [] => repl
        | c :: rest2 => repl ++ c :: subGo r repl fuel rest2 (some c)
      else
        repl ++ subGo r repl fuel stE.rest
          (lastConsumed rest (rest.length - stE.rest.length) prev)
    | none =>
      match rest with
      | [] => []
      | c :: rest2 => c :: subGo r repl fuel rest2 (some c)

/-- Python `re.sub(pattern, repl, text)`. -/
def reSubAll (r : Reg) (repl : Str) (text : Str) : Str :=
  subGo r repl (text.length + 1) text none

/-- Worker for `re.findall` with one capture group: collect group 1 of
every non-overlapping match, scanning left to right (fuel as in
`subGo`). -/
def findAllGo (r : Reg) : Nat → Str → Option Char → List Str
  | 0, _, _ => []
  | fuel + 1, rest, prev =>
    match (mrun (fuelFor r rest) r ⟨rest, prev, none⟩).head? with
    | some stE =>
      if rest.length - stE.rest.length = 0 then
        match rest with
        | [] => [stE.cap.getD []]
        | c :: rest2 => stE.cap.getD [] :: findAllGo r fuel rest2 (some c)
      else
        stE.cap.getD [] :: findAllGo r fuel stE.rest
          (lastConsumed rest (rest.length - stE.rest.length) prev)
    | none =>
      match rest with
      | [] => []
      | c :: rest2 => findAllGo r fuel rest2 (some c)

/-- Python `re.findall` (patterns with one capture group). -/
def reFindAll (r : Reg) (text : Str) : List Str :=
  findAllGo r (text.length + 1) text none

/-! ### Regex building blocks -/

/-- Sequence a list of regexes. -/
def rseq (l : List Reg) : Reg := l.foldr Reg.seq .eps

/-- Literal from a Lean string. -/
def rlit (s : String) : Reg := .lit (pstr s)

/-- `.` under DOTALL: any character. -/
def anyCh : Reg := .cls (fun _ => true)

/-- `.` without DOTALL / `[^\n]`. -/
def nonNl : Reg := .cls (fun c => c ≠ '\n')

/-- `\s`. -/
def wsC : Reg := .cls isPySpace

/-- `["\']`: double quote or apostrophe. -/
def quoteC : Reg := .cls (fun c => c = '"' ∨ c = quoteCh)

/-- `[^"\']`. -/
def notQuotes : Reg := .cls (fun c => ¬ (c = '"' ∨ c = quoteCh))

/-- `[^"]`. -/
def notDq : Reg := .cls (fun c => c ≠ '"')

/-- `r+` greedy. -/
def plusG (r : Reg) : Reg := .seq r (.starG r)

/-- `r+?` lazy. -/
def plusL (r : Reg) : Reg := .seq r (.starL r)

/-! ## The regexes of `transcript_processor.py` -/

/-- `[Tt]`. -/
def clsTt : Reg := .cls (fun c => c = 'T' ∨ c = 't')

/-- `[Pp]`. -/
def clsPp : Reg := .cls (fun c => c = 'P' ∨ c = 'p')

/-- `[\d:]`. -/
def clsDigitColon : Reg := .cls (fun c => c.isDigit ∨ c = ':')

/-- Head of the tags section: `2\.\s*(?:Relevant\s*)?[Tt]ags:`. -/
def tagsHeadReg : Reg :=
  rseq [rlit "2.", .starG wsC, .optG (rseq [rlit "Relevant", .starG wsC]), clsTt, rlit "ags:"]

/-- Head of the key-points section: `3\.\s*Key\s*[Pp]oints:`. -/
def keyHeadReg : Reg :=
  rseq [rlit "3.", .starG wsC, rlit "Key", .starG wsC, clsPp, rlit "oints:"]

/-- Head of the formatted-transcript section: `4\.\s*Formatted\s*[Tt]ranscript:`. -/
def fmtHeadReg : Reg :=
  rseq [rlit "4.", .starG wsC, rlit "Formatted", .starG wsC, clsTt, rlit "ranscript:"]

/-- `1\.\s*Summary:(.+?)(?=2\.\s*(?:Relevant\s*)?[Tt]ags:)` with DOTALL. -/
def summarySecReg : Reg :=
  rseq [rlit "1.", .starG wsC, rlit "Summary:", .grp (plusL anyCh), .look tagsHeadReg]

/-- `2\.\s*(?:Relevant\s*)?[Tt]ags:(.+?)(?=3\.\s*Key\s*[Pp]oints:)` with DOTALL. -/
def tagsSecReg : Reg :=
  rseq [tagsHeadReg, .grp (plusL anyCh), .look keyHeadReg]

/-- `3\.\s*Key\s*[Pp]oints:(.+?)(?=4\.\s*Formatted\s*[Tt]ranscript:)` with DOTALL. -/
def keySecReg : Reg :=
  rseq [keyHeadReg, .grp (plusL anyCh), .look fmtHeadReg]

/-- `4\.\s*Formatted\s*[Tt]ranscript:(.+?)$` with DOTALL (the `$` is
single-line mode: end of text or just before a final newline). -/
def fmtSecReg : Reg :=
  rseq [fmtHeadReg, .grp (plusL anyCh), .eolS]

/-- `^(?:Title|Video Title):[^\n]+\n` (MULTILINE). -/
def metaTitleReg : Reg :=
  rseq [.bolM, .alt (rlit "Title") (rlit "Video Title"), rlit ":", plusG nonNl, rlit "\n"]

/-- `^(?:Video )?ID:[^\n]+\n` (MULTILINE). -/
def metaIdReg : Reg :=
  rseq [.bolM, .optG (rlit "Video "), rlit "ID:", plusG nonNl, rlit "\n"]

/-- `^Channel:[^\n]+\n` (MULTILINE). -/
def metaChannelReg : Reg :=
  rseq [.bolM, rlit "Channel:", plusG nonNl, rlit "\n"]

/-- `^Published:[^\n]+\n` (MULTILINE). -/
def metaPublishedReg : Reg :=
  rseq [.bolM, rlit "Published:", plusG nonNl, rlit "\n"]

/-- `^Transcript:\n` (MULTILINE). -/
def metaTranscriptReg : Reg :=
  rseq [.bolM, rlit "Transcript:\n"]

/-- The `metadata_patterns` list of `validate_response`. -/
def metadata_patterns : List Reg :=
  [metaTitleReg, metaIdReg, metaChannelReg, metaPublishedReg, metaTranscriptReg]

/-- `Transcriber:.*?\n` (no DOTALL: `.` is `[^\n]`). -/
def transcriberReg : Reg := rseq [rlit "Transcriber:", .starL nonNl, rlit "\n"]

/-- `Reviewer:.*?\n`. -/
def reviewerReg : Reg := rseq [rlit "Reviewer:", .starL nonNl, rlit "\n"]

/-- `\[(?:Music|Applause)\](?:\s*\n)?`. -/
def soundEffectReg : Reg :=
  rseq [rlit "[", .alt (rlit "Music") (rlit "Applause"), rlit "]",
        .optG (rseq [.starG wsC, rlit "\n"])]

/-- `^\s*\[[\d:]+\]\s*` (MULTILINE): timestamps at start of lines. -/
def timestampReg : Reg :=
  rseq [.bolM, .starG wsC, rlit "[", plusG clsDigitColon, rlit "]", .starG wsC]

/-- `\n{3,}`. -/
def newlines3Reg : Reg :=
  rseq [rlit "\n\n\n", .starG (.cls (fun c => c = '\n'))]

/-- `^\s+` (MULTILINE). -/
def leadingWsReg : Reg := rseq [.bolM, plusG wsC]

/-- `\s+$` (MULTILINE). -/
def trailingWsReg : Reg := rseq [plusG wsC, .eolM]

/-- ```` ```json\s*|\s*``` ````: the code-fence cleanup pattern of
`clean_and_transform_response`. -/
def fenceReg : Reg :=
  .alt (rseq [rlit "```json", .starG wsC]) (rseq [.starG wsC, rlit "```"])

/-! ## `identify_sections`, `clean_transcript_content`,
`clean_metadata_from_text` -/

/-- The four sections recognised by `identify_sections`. -/
structure Sections where
  summary : Str
  tags : Str
  key_points : Str
  formatted_text : Str
deriving DecidableEq, Repr

/-- `identify_sections`: split the response into its four numbered
sections; a section whose regex does not match stays empty; matched
section bodies are stripped. -/
def identify_sections (text : Str) : Sections :=
  { summary := (reSearchCap summarySecReg text).map pyStrip |>.getD []
    tags := (reSearchCap tagsSecReg text).map pyStrip |>.getD []
    key_points := (reSearchCap keySecReg text).map pyStrip |>.getD []
    formatted_text := (reSearchCap fmtSecReg text).map pyStrip |>.getD [] }

/-- `clean_transcript_content`: remove transcriber/reviewer credits,
bracketed sound effects and leading timestamps, collapse runs of three
or more newlines to two, trim per-line leading and trailing whitespace,
then strip. -/
def clean_transcript_content (text : Str) : Str :=
  if text = [] then text
  else
    let c := reSubAll transcriberReg [] text
    let c := reSubAll reviewerReg [] c
    let c := reSubAll soundEffectReg [] c
    let c := reSubAll timestampReg [] c
    let c := reSubAll newlines3Reg (pstr "\n\n") c
    let c := reSubAll leadingWsReg [] c
    let c := reSubAll trailingWsReg [] c
    pyStrip c

/-- The fixed skeleton built by `clean_metadata_from_text`:
`"\n".join(["1. Summary:", summary, "\n2. Tags:", tags,
"\n3. Key Points:", key_points, "\n4. Formatted Transcript:",
formatted])`, with the adjacent constant pieces merged. -/
def joinSections (summary tags key_points formatted : Str) : Str :=
  pstr "1. Summary:\n" ++ summary ++ pstr "\n\n2. Tags:\n" ++ tags ++
  pstr "\n\n3. Key Points:\n" ++ key_points ++
  pstr "\n\n4. Formatted Transcript:\n" ++ formatted

/-- `clean_metadata_from_text`: split into sections, clean the
formatted-transcript section, and rebuild the text in the fixed
skeleton, stripped. -/
def clean_metadata_from_text (text : Str) : Str :=
  if text = [] then text
  else
    let sections := identify_sections text
    let f :=
      if sections.formatted_text ≠ [] then clean_transcript_content sections.formatted_text
      else sections.formatted_text
    pyStrip (joinSections sections.summary sections.tags sections.key_points f)

/-! ## `extract_field` -/

/-- `["\']?FIELD["\']?\s*:\s*\[(.*?)\]` with DOTALL (the list form of
`extract_field`). -/
def listFieldReg (fieldName : Str) : Reg :=
  rseq [.optG quoteC, .lit fieldName, .optG quoteC, .starG wsC, rlit ":", .starG wsC,
        rlit "[", .grp (.starL anyCh), rlit "]"]

/-- `["\']([^"\']+)["\']`: one quoted item inside a list body. -/
def listItemReg : Reg :=
  rseq [quoteC, .grp (plusG notQuotes), quoteC]

/-- `["\']?formatted_text["\']?\s*:\s*["\']([^"]*(?:"(?:[^"]*"[^"]*)*)?)["\']`:
the special pattern for `formatted_text`. -/
def fmtFieldReg : Reg :=
  rseq [.optG quoteC, rlit "formatted_text", .optG quoteC, .starG wsC, rlit ":", .starG wsC,
        quoteC,
        .grp (.seq (.starG notDq)
                   (.optG (.seq (rlit "\"")
                                (.starG (rseq [.starG notDq, rlit "\"", .starG notDq]))))),
        quoteC]

/-- `["\']?FIELD["\']?\s*:\s*["\']([^"\']+)["\']`: the standard scalar
pattern. -/
def scalarFieldReg (fieldName : Str) : Reg :=
  rseq [.optG quoteC, .lit fieldName, .optG quoteC, .starG wsC, rlit ":", .starG wsC,
        quoteC, .grp (plusG notQuotes), quoteC]

/-- `["\']?FIELD["\']?\s*:\s*["\']([^"\']+(?:[^"\']+)*)["\']`: the
"multiline" fallback scalar pattern (searched with DOTALL). -/
def scalarFieldReg2 (fieldName : Str) : Reg :=
  rseq [.optG quoteC, .lit fieldName, .optG quoteC, .starG wsC, rlit ":", .starG wsC,
        quoteC, .grp (.seq (plusG notQuotes) (.starG (plusG notQuotes))), quoteC]

/-- `extract_field(text, field_name, is_list=True)`. -/
def extract_field_list (text fieldName : Str) : List Str :=
  match reSearchCap (listFieldReg fieldName) text with
  | some inner => reFindAll listItemReg inner
  | none => []

/-- `extract_field(text, field_name)` for scalar fields, including the
`formatted_text` special case (which cleans metadata from the extracted
text) and the fall-through to the standard and multiline patterns. -/
def extract_field_str (text fieldName : Str) : Str :=
  let generic :=
    match reSearchCap (scalarFieldReg fieldName) text with
    | some cap => cap
    | none =>
      match reSearchCap (scalarFieldReg2 fieldName) text with
      | some cap => cap
      | none => []
  if fieldName = pstr "formatted_text" then
    match reSearchCap fmtFieldReg text with
    | some cap => clean_metadata_from_text cap
    | none => generic
  else generic

/-! ## `clean_and_transform_response` -/

/-- The structured record the pipeline reads out of the model response.
Tier-1/2 decoding is Python `json.loads`; its result object is modelled
by this record (absent key = `none`).  The metadata fields
(`title`, `video_id`, `publishedAt`, `style`) are attached by
`process_transcript` after validation. -/
structure Response where
  formatted_text : Option Str := none
  summary : Option Str := none
  tags : Option (List Str) := none
  key_points : Option (List Str) := none
  research_implications : Option (List Str) := none
  code_snippets : Option (List Str) := none
  technical_concepts : Option (List Str) := none
  market_insights : Option (List Str) := none
  strategic_implications : Option (List Str) := none
  title : Option Str := none
  video_id : Option Str := none
  publishedAt : Option Str := none
  style : Option Str := none
deriving DecidableEq, Repr

/-- A decoder standing for Python `json.loads` restricted to the record
shape the pipeline reads (standard library, not repository code). -/
abbrev JsonLoads := Str → Option Response

/-- The tier-2 cleanup of `clean_and_transform_response`: strip, remove
code-fence markup, coerce single quotes to double quotes. -/
def tier2_clean (response_text : Str) : Str :=
  listReplaceAll [quoteCh] (pstr "\"") (reSubAll fenceReg [] (pyStrip response_text))

/-- The tier-3 regex extraction of `clean_and_transform_response`
(before the `any()` check and the list cleanup). -/
structure Extracted where
  formatted_text : Str
  summary : Str
  tags : List Str
  key_points : List Str
deriving DecidableEq, Repr

/-- Tier-3 field extraction (each `or ''` / `or []` default folded in,
as in the source where `extract_field` already returns those defaults). -/
def tier3_extract (response_text : Str) : Extracted :=
  { formatted_text := extract_field_str response_text (pstr "formatted_text")
    summary := extract_field_str response_text (pstr "summary")
    tags := extract_field_list response_text (pstr "tags")
    key_points := extract_field_list response_text (pstr "key_points") }

/-- `not any(extracted.values())`: every extracted field is empty. -/
def extractedAllEmpty (e : Extracted) : Bool :=
  e.formatted_text = [] ∧ e.summary = [] ∧ e.tags = [] ∧ e.key_points = []

/-- The list-entry cleanup applied to tier-3 `tags` and `key_points`:
keep `p.strip()` when it is non-empty and not `","`. -/
def cleanListEntries (l : List Str) : List Str :=
  (l.map pyStrip).filter (fun p => p ≠ [] ∧ p ≠ pstr ",")

/-- `clean_and_transform_response`: tier 1 strict decode, tier 2
cleanup-and-redecode, tier 3 regex extraction; raises `ValueError`
(modelled as `.error`) only when every tier-3 field is empty. -/
def clean_and_transform_response (jsonLoads : JsonLoads) (response_text : Str) :
    Except Str Response :=
  match jsonLoads response_text with
  | some r => .ok r
  | none =>
    match jsonLoads (tier2_clean response_text) with
    | some r => .ok r
    | none =>
      let e := tier3_extract response_text
      if extractedAllEmpty e then
        .error (pstr "Failed to parse response and extract content")
      else
        .ok { formatted_text := some e.formatted_text
              summary := some e.summary
              tags := some (cleanListEntries e.tags)
              key_points := some (cleanListEntries e.key_points) }

/-! ## `validate_response` -/

/-- Python truthiness of an optional string (`response.get(k)`). -/
def truthyS : Option Str → Bool
  | none => false
  | some s => s ≠ []

/-- Python truthiness of an optional list (`response.get(k)`). -/
def truthyL : Option (List Str) → Bool
  | none => false
  | some l => l ≠ []

/-- Whether any of the `metadata_patterns` matches `formatted_text`. -/
def metadataFound (formatted_text : Str) : Bool :=
  metadata_patterns.any (fun r => reFound r formatted_text)

/-- `validate_response(input_text, response)`: raises (modelled as
`.error`) when `formatted_text` is missing/empty, when it equals the
input text, or when `summary`/`tags`/`key_points` is missing/empty;
in between, a detected metadata header rewrites `formatted_text`
through `clean_metadata_from_text` (the response dict is mutated, so
the possibly-rewritten response is returned on success). -/
def validate_response (input_text : Str) (response : Response) : Except Str Response :=
  if ¬ truthyS response.formatted_text then
    .error (pstr "Response missing formatted text")
  else if response.formatted_text = some input_text then
    .error (pstr "Formatted text unchanged from input")
  else
    let ft := response.formatted_text.getD []
    let response :=
      if metadataFound ft then
        { response with formatted_text := some (clean_metadata_from_text ft) }
      else response
    let missing :=
      (if ¬ truthyS response.summary then [pstr "summary"] else []) ++
      (if ¬ truthyL response.tags then [pstr "tags"] else []) ++
      (if ¬ truthyL response.key_points then [pstr "key_points"] else [])
    if missing ≠ [] then
      .error (pstr "Response missing required fields: " ++
        (missing.intersperse (pstr ", ")).flatten)
    else .ok response

/-! ## `prompt_templates.py` -/

/-- The four system prompts of `TEMPLATES`.  Their literal texts are
large constant strings never inspected by the processing pipeline (they
are only forwarded to the LLM collaborator), so they are represented by
their identity. -/
inductive SystemPrompt where
  | defaultP
  | academicP
  | technicalP
  | businessP
deriving DecidableEq, Repr

/-- One entry of `TEMPLATES` (`response_format` is the constant
`{"type": "json_object"}` in every entry and is never read by the
embedded pipeline, so it is omitted). -/
structure Template where
  system_prompt : SystemPrompt
deriving DecidableEq, Repr

/-- The `TEMPLATES` table of `prompt_templates.py`. -/
def TEMPLATES : List (Str × Template) :=
  [(pstr "default", ⟨.defaultP⟩), (pstr "academic", ⟨.academicP⟩),
   (pstr "technical", ⟨.technicalP⟩), (pstr "business", ⟨.businessP⟩)]

/-- `get_template(style)`: `TEMPLATES.get(style, TEMPLATES["default"])`. -/
def get_template (style : Str) : Template :=
  ((TEMPLATES.find? (fun e => e.1 = style)).map (fun e => e.2)).getD ⟨.defaultP⟩

/-! ## `process_transcript` -/

/-- Python exceptions crossing the boundaries the pipeline observes. -/
inductive PyErr where
  | keyError (msg : Str)
  | valueError (msg : Str)
  | other (msg : Str)
deriving DecidableEq, Repr

/-- `str(e)` for the modelled exceptions (`str(KeyError(k))` shows the
key in quotes). -/
def PyErr.toStr : PyErr → Str
  | .keyError m => quoteCh :: m ++ [quoteCh]
  | .valueError m => m
  | .other m => m

/-- Whether the exception is a `KeyError` (the `giveup` predicate of the
backoff decorator). -/
def PyErr.isKeyError : PyErr → Bool
  | .keyError _ => true
  | _ => false

/-- Content of one chat message: either one of the constant system
prompts or user-supplied text. -/
inductive MsgContent where
  | systemPrompt (p : SystemPrompt)
  | userText (s : Str)
deriving DecidableEq, Repr

/-- One entry of the `messages` list sent to the completion API. -/
structure ChatMessage where
  role : Str
  content : MsgContent
deriving DecidableEq, Repr

/-- The `messages` list built by `process_transcript` (lines 344-350 of
`transcript_processor.py`): the system prompt of the template and, as
the user message, `transcript_text` itself. -/
def build_messages (template : Template) (transcript_text : Str) : List ChatMessage :=
  [{ role := pstr "system", content := .systemPrompt template.system_prompt },
   { role := pstr "user", content := .userText transcript_text }]

/-- The LLM completion collaborator: attempt index and messages in, raw
response text or an exception out. -/
abbrev Llm := Nat → List ChatMessage → Except PyErr Str

/-- The `context` string built by `process_transcript` (video metadata
preamble; each piece only when its value is truthy). -/
def build_context (video_title publish_date video_id : Option Str) : Str :=
  let c := []
  let c := c ++ (if truthyS video_title then
    pstr "Video Title: " ++ video_title.getD [] ++ pstr "\n" else [])
  let c := c ++ (if truthyS publish_date then
    pstr "Published: " ++ publish_date.getD [] ++ pstr "\n" else [])
  let c := c ++ (if truthyS video_id then
    pstr "Video ID: " ++ video_id.getD [] ++ pstr "\n" else [])
  if c ≠ [] then c ++ pstr "\nTranscript:\n" else c

/-- The failure dict returned by `process_transcript`'s `except` branch
(`success: False` is implicit in the constructor). -/
structure FailureDict where
  video_id : Option Str
  error : Str
  error_type : Str
deriving DecidableEq, Repr

/-- Result of one call to the undecorated `process_transcript` body:
the processed response dict or the failure dict. -/
inductive ProcResult where
  | success (r : Response)
  | failure (f : FailureDict)
deriving DecidableEq, Repr

/-- One execution of the `process_transcript` body (without the
decorators).  Every exception raised inside the `try` block — invalid
transcript, LLM exception, parse failure, validation failure — is
caught by the final `except Exception` and turned into the failure dict
with `error_type` `'processing_error'`, so the body itself never
raises. -/
def process_transcript_once (jsonLoads : JsonLoads)
    (llmReply : List ChatMessage → Except PyErr Str)
    (transcript_text : Str) (video_title video_id publish_date : Option Str)
    (style : Str) : ProcResult :=
  if transcript_text = [] ∨ pyStrip transcript_text = [] then
    .failure { video_id := video_id,
               error := pstr "Invalid transcript text provided",
               error_type := pstr "processing_error" }
  else
    let template := get_template style
    let context := build_context video_title publish_date video_id
    -- `full_text = context + transcript_text` is computed by the source
    -- but never used afterwards; the user message is `transcript_text`.
    let _full_text := context ++ transcript_text
    let messages := build_messages template transcript_text
    match llmReply messages with
    | .error e =>
      .failure { video_id := video_id, error := e.toStr,
                 error_type := pstr "processing_error" }
    | .ok response_text =>
      match clean_and_transform_response jsonLoads response_text with
      | .error m =>
        .failure { video_id := video_id, error := m,
                   error_type := pstr "processing_error" }
      | .ok processed =>
        match validate_response transcript_text processed with
        | .error m =>
          .failure { video_id := video_id, error := m,
                     error_type := pstr "processing_error" }
        | .ok processed =>
          let processed :=
            if truthyS video_title then { processed with title := video_title } else processed
          let processed :=
            if truthyS video_id then { processed with video_id := video_id } else processed
          let processed :=
            if truthyS publish_date then { processed with publishedAt := publish_date } else processed
          let processed :=
            if style ≠ [] then { processed with style := some style } else processed
          .success processed

/-- `MAX_RETRIES` of `transcript_processor.py`. -/
def MAX_RETRIES : Nat := 3

/-- `backoff.on_exception(backoff.expo, (Exception,), max_tries,
giveup=KeyError)`: call the wrapped function; on an exception, re-raise
immediately for a `KeyError` or when the attempt budget is exhausted,
otherwise sleep (time is irrelevant to the result) and retry.  Returns
the result together with the number of attempts actually made. -/
def backoffRun (f : Nat → Except PyErr α) : Nat → Nat → Except PyErr (α × Nat)
  | 0, _ => .error (.other (pstr "no attempts"))
  | left + 1, i =>
    match f i with
    | .ok a => .ok (a, i + 1)
    | .error e =>
      if e.isKeyError ∨ left = 0 then .error e
      else backoffRun f left (i + 1)

/-- The decorated `process_transcript`: the rate-limit decorator only
sleeps (it does not change the result), and the backoff decorator
retries the body up to `MAX_RETRIES` attempts.  The attempt count made
is returned alongside the result. -/
def process_transcript (jsonLoads : JsonLoads) (llm : Llm)
    (transcript_text : Str) (video_title video_id publish_date : Option Str)
    (style : Str) : Except PyErr (ProcResult × Nat) :=
  backoffRun
    (fun i => .ok (process_transcript_once jsonLoads (llm i)
      transcript_text video_title video_id publish_date style))
    MAX_RETRIES 0

/-! ## `datetime` model, `get_date` and the batch sort

`datetime.fromisoformat` / datetime comparison are Python standard
library; they are modelled here after the documented CPython ≤3.10
semantics the source relies on: strict `YYYY-MM-DD[*HH[:MM[:SS[.fff[fff]]]]
[±HH:MM[:SS]]]` parsing, field-range validation, tuple comparison for
two offset-naive values, instant comparison for two offset-aware
values, and a `TypeError` when a naive and an aware value meet. -/

/-- A Python `datetime`: calendar fields plus the UTC offset in seconds
for offset-aware values (`none` = naive). -/
structure PyDateTime where
  year : Nat
  month : Nat
  day : Nat
  hour : Nat
  minute : Nat
  second : Nat
  micro : Nat
  tzSeconds : Option Int
deriving DecidableEq, Repr

/-- `datetime.min` = 0001-01-01 00:00:00 (offset-naive). -/
def datetimeMin : PyDateTime := ⟨1, 1, 1, 0, 0, 0, 0, none⟩

/-- Gregorian leap year. -/
def isLeapYear (y : Nat) : Bool := (y % 4 = 0 ∧ y % 100 ≠ 0) ∨ y % 400 = 0

/-- Days in a month. -/
def daysInMonth (y m : Nat) : Nat :=
  if m = 2 then (if isLeapYear y then 29 else 28)
  else if m = 4 ∨ m = 6 ∨ m = 9 ∨ m = 11 then 30
  else 31

/-- Days in the months before month `m` of year `y`. -/
def daysBeforeMonth (y m : Nat) : Nat :=
  (List.range m).foldl (fun acc i => if i ≥ 1 then acc + daysInMonth y i else acc) 0

/-- Proleptic Gregorian ordinal (0001-01-01 is day 1), as in
`datetime.toordinal`. -/
def toOrdinal (y m d : Nat) : Nat :=
  365 * (y - 1) + (y - 1) / 4 - (y - 1) / 100 + (y - 1) / 400 + daysBeforeMonth y m + d

/-- Microseconds since the epoch of the proleptic calendar, ignoring
the UTC offset. -/
def naiveMicros (dt : PyDateTime) : Int :=
  ((((toOrdinal dt.year dt.month dt.day) * 24 + dt.hour) * 60 + dt.minute) * 60
    + dt.second : Nat) * 1000000 + dt.micro

/-- Microseconds of the instant an offset-aware datetime denotes. -/
def awareMicros (dt : PyDateTime) (off : Int) : Int :=
  naiveMicros dt - off * 1000000

/-- The comparison tuple of an offset-naive datetime. -/
def dtTuple (dt : PyDateTime) : List Nat :=
  [dt.year, dt.month, dt.day, dt.hour, dt.minute, dt.second, dt.micro]

/-- Lexicographic `<` on equal-length `Nat` lists. -/
def lexLtNat : List Nat → List Nat → Bool
  | [], [] => false
  | [], _ :: _ => true
  | _ :: _, [] => false
  | a :: as, b :: bs => a < b ∨ (a = b ∧ lexLtNat as bs)

/-- `a < b` for two datetimes of the same awareness (the defensive
mixed case returns `false`; it is only reached behind the `TypeError`
of `pyLtDt`). -/
def dtLtPure (a b : PyDateTime) : Bool :=
  match a.tzSeconds, b.tzSeconds with
  | none, none => lexLtNat (dtTuple a) (dtTuple b)
  | some oa, some ob => awareMicros a oa < awareMicros b ob
  | _, _ => false

/-- Python `a < b` on datetimes: raises `TypeError` when one value is
offset-naive and the other offset-aware. -/
def pyLtDt (a b : PyDateTime) : Except Str Bool :=
  match a.tzSeconds, b.tzSeconds with
  | none, none => .ok (dtLtPure a b)
  | some _, some _ => .ok (dtLtPure a b)
  | _, _ => .error (pstr "TypeError: cannot compare offset-naive and offset-aware datetimes")

/-- Parse one decimal digit. -/
def digitVal (c : Char) : Option Nat :=
  if c.isDigit then some (c.toNat - 48) else none

/-- Parse exactly two digits. -/
def parse2 : Str → Option (Nat × Str)
  | a :: b :: r => do
    let x ← digitVal a
    let y ← digitVal b
    return (10 * x + y, r)
  | _ => none

/-- Parse exactly four digits. -/
def parse4 (s : Str) : Option (Nat × Str) := do
  let (hi, r) ← parse2 s
  let (lo, r) ← parse2 r
  return (100 * hi + lo, r)

/-- Expect one specific character. -/
def expectCh (c : Char) : Str → Option Str
  | d :: r => if d = c then some r else none
  | [] => none

/-- Parse the fractional-seconds part: exactly 3 or 6 digits after the
dot (CPython ≤3.10 takes all digits up to the timezone sign or the end
and requires their count to be 3 or 6), scaled to microseconds. -/
def parseFraction (s : Str) : Option (Nat × Str) :=
  let digits := s.takeWhile (fun c => c.isDigit)
  let rest := s.dropWhile (fun c => c.isDigit)
  let value := digits.foldl (fun acc c => acc * 10 + (c.toNat - 48)) 0
  if digits.length = 3 then some (value * 1000, rest)
  else if digits.length = 6 then some (value, rest)
  else none

/-- Parse the time-of-day part `HH[:MM[:SS[.fff[fff]]]]`. -/
def parseTimePart (s : Str) : Option (Nat × Nat × Nat × Nat × Str) := do
  let (h, r) ← parse2 s
  match expectCh ':' r with
  | none => return (h, 0, 0, 0, r)
  | some r1 => do
    let (mi, r2) ← parse2 r1
    match expectCh ':' r2 with
    | none => return (h, mi, 0, 0, r2)
    | some r3 => do
      let (s2, r4) ← parse2 r3
      match expectCh '.' r4 with
      | none => return (h, mi, s2, 0, r4)
      | some r5 => do
        let (us, r6) ← parseFraction r5
        return (h, mi, s2, us, r6)

/-- Parse the timezone part `±HH:MM[:SS]`, returning the offset in
seconds. -/
def parseTzPart (sign : Int) (s : Str) : Option (Int × Str) := do
  let (th, r) ← parse2 s
  let r ← expectCh ':' r
  let (tm, r2) ← parse2 r
  let (tsec, r3) :=
    match expectCh ':' r2 with
    | some ra =>
      match parse2 ra with
      | some (v, rb) => (v, rb)
      | none => (0, r2)
    | none => (0, r2)
  let total : Nat := th * 3600 + tm * 60 + tsec
  if tm ≤ 59 ∧ tsec ≤ 59 ∧ total < 24 * 3600 then
    return (sign * total, r3)
  else none

/-- `datetime.fromisoformat` (CPython ≤3.10 strict grammar):
`YYYY-MM-DD` then optionally one separator character and
`HH[:MM[:SS[.fff[fff]]]]` then optionally `±HH:MM[:SS]`; all fields
range-checked.  Returns `none` where Python raises `ValueError`. -/
def fromisoformat (s : Str) : Option PyDateTime := do
  let (y, r) ← parse4 s
  let r ← expectCh '-' r
  let (mo, r) ← parse2 r
  let r ← expectCh '-' r
  let (d, r) ← parse2 r
  if ¬ (1 ≤ y ∧ 1 ≤ mo ∧ mo ≤ 12 ∧ 1 ≤ d ∧ d ≤ daysInMonth y mo) then none
  else
    match r with
    | [] => return ⟨y, mo, d, 0, 0, 0, 0, none⟩
    | _sep :: r1 => do
      let (h, mi, sec, us, r2) ← parseTimePart r1
      if ¬ (h ≤ 23 ∧ mi ≤ 59 ∧ sec ≤ 59) then none
      else
        match r2 with
        | [] => return ⟨y, mo, d, h, mi, sec, us, none⟩
        | c :: r3 =>
          if c = '+' then do
            let (off, r4) ← parseTzPart 1 r3
            if r4 = [] then return ⟨y, mo, d, h, mi, sec, us, some off⟩ else none
          else if c = '-' then do
            let (off, r4) ← parseTzPart (-1) r3
            if r4 = [] then return ⟨y, mo, d, h, mi, sec, us, some off⟩ else none
          else none

/-! ## `batch_process_transcripts` -/

/-- One transcript dict as supplied to the batch (absent key = `none`;
the values the pipeline reads are strings). -/
structure TDict where
  video_id : Option Str := none
  title : Option Str := none
  channel_name : Option Str := none
  publishedAt : Option Str := none
  transcript : Option Str := none
deriving DecidableEq, Repr

/-- One element of the `transcripts` argument: a dict, or a value of
the wrong shape (`isinstance(transcript, dict)` is false). -/
inductive BatchInput where
  | dict (d : TDict)
  | nonDict
deriving DecidableEq, Repr

/-- `get_date(transcript)`: the sort key.  A missing or falsy
`publishedAt`, a parse failure, and the `AttributeError` from `.get` on
a non-dict all fall back to `datetime.min`. -/
def get_date : BatchInput → PyDateTime
  | .nonDict => datetimeMin
  | .dict d =>
    match d.publishedAt with
    | none => datetimeMin
    | some s =>
      if s = [] then datetimeMin
      else
        match fromisoformat (listReplaceAll (pstr "Z") (pstr "+00:00") s) with
        | some dt => dt
        | none => datetimeMin

/-- Stable insertion into an ascending-sorted list: the new element
passes every element not greater than it, so later-arriving equals stay
behind earlier ones.  A comparison `TypeError` propagates. -/
def insortAsc (k : α → PyDateTime) (x : α) : List α → Except Str (List α)
  | [] => .ok [x]
  | y :: ys =>
    match pyLtDt (k x) (k y) with
    | .error e => .error e
    | .ok true => .ok (x :: y :: ys)
    | .ok false =>
      match insortAsc k x ys with
      | .error e => .error e
      | .ok l => .ok (y :: l)

/-- Worker of the stable ascending insertion sort: insert the pending
elements one by one into the sorted accumulator. -/
def sortAscGo (k : α → PyDateTime) (acc : List α) : List α → Except Str (List α)
  | [] => .ok acc
  | x :: xs =>
    match insortAsc k x acc with
    | .error e => .error e
    | .ok acc2 => sortAscGo k acc2 xs

/-- Stable ascending sort by key (insertion sort; for a total key order
this equals Python's stable `sorted`, and on a two-element list it
performs the same single comparison CPython's binary insertion does). -/
def sortAscE (k : α → PyDateTime) (xs : List α) : Except Str (List α) :=
  sortAscGo k [] xs

/-- `sorted(xs, key=k, reverse=True)`: CPython implements `reverse` by
reversing the list before and after an ascending stable sort, which
keeps equal-keyed elements in arrival order. -/
def pySortedDesc (k : α → PyDateTime) (xs : List α) : Except Str (List α) :=
  match sortAscGo k [] xs.reverse with
  | .error e => .error e
  | .ok s => .ok s.reverse

/-- The comparison-free companion of `insortAsc`, used to state what
the sort computes when every comparison succeeds. -/
def insortAscP (lt : α → α → Bool) (x : α) : List α → List α
  | [] => [x]
  | y :: ys => if lt x y then x :: y :: ys else y :: insortAscP lt x ys

/-- Comparison-free companion of `sortAscGo`. -/
def sortAscGoP (lt : α → α → Bool) (acc : List α) : List α → List α
  | [] => acc
  | x :: xs => sortAscGoP lt (insortAscP lt x acc) xs

/-- Comparison-free companion of `pySortedDesc`. -/
def pySortedDescP (lt : α → α → Bool) (xs : List α) : List α :=
  (sortAscGoP lt [] xs.reverse).reverse

/-- One entry of the result list of `batch_process_transcripts`.
`failure` entries carry `success: False`, `success` entries
`success: True`; the field order follows the source dicts. -/
inductive BatchEntry where
  | failure (video_id : Str) (error : Str) (error_type : Str)
  | success (video_id title channel_name : Str) (publishedAt : Option Str)
      (formatted_text summary : Str) (tags key_points : List Str)
      (full_transcript style : Str)
      (research_implications code_snippets technical_concepts
       market_insights strategic_implications : List Str)
deriving DecidableEq, Repr

/-- `processed.get(key, '')` on the dict returned by
`process_transcript` (a failure dict has none of the content keys). -/
def ProcResult.getS (r : ProcResult) (sel : Response → Option Str) : Str :=
  match r with
  | .success resp => (sel resp).getD []
  | .failure _ => []

/-- `processed.get(key, [])`. -/
def ProcResult.getL (r : ProcResult) (sel : Response → Option (List Str)) : List Str :=
  match r with
  | .success resp => (sel resp).getD []
  | .failure _ => []

/-- The input-validation pass of `batch_process_transcripts`: a dict
missing `transcript` or `video_id` contributes a `validation_error`
entry (and is NOT removed from the list); `.get` on a non-dict raises
`AttributeError`, which the outer handler re-raises, aborting the whole
batch. -/
def validationPass : List BatchInput → Except Str (List BatchEntry)
  | [] => .ok []
  | .nonDict :: _ =>
    .error (pstr "AttributeError: the non-dict input has no attribute get")
  | .dict d :: rest =>
    match validationPass rest with
    | .error e => .error e
    | .ok tail =>
      if d.transcript.isNone ∨ d.video_id.isNone then
        .ok (.failure (d.video_id.getD (pstr "unknown"))
          (pstr "Missing required fields") (pstr "validation_error") :: tail)
      else
        .ok tail

/-- One iteration of the processing loop.  `transcript['transcript']`
and `transcript['video_id']` raise `KeyError` for the (not excluded)
invalid dicts; the loop's `except` turns any exception into a
`processing_error` entry.  When `process_transcript` returns — also
when it returns a failure dict — a `success: True` entry is built from
`processed.get(...)` defaults.  For a non-dict element the `except`
handler itself raises `AttributeError` (`.get` on a non-dict), aborting
the batch; that case is unreachable because the validation pass has
already aborted on it. -/
def processItem (jsonLoads : JsonLoads) (llm : Llm) (style : Str) :
    BatchInput → Except Str BatchEntry
  | .nonDict =>
    .error (pstr "AttributeError: the non-dict input has no attribute get")
  | .dict d =>
    match d.transcript with
    | none =>
      .ok (.failure (d.video_id.getD (pstr "unknown"))
        ((PyErr.keyError (pstr "transcript")).toStr) (pstr "processing_error"))
    | some txt =>
      match d.video_id with
      | none =>
        .ok (.failure (pstr "unknown")
          ((PyErr.keyError (pstr "video_id")).toStr) (pstr "processing_error"))
      | some vid =>
        match process_transcript jsonLoads llm txt d.title (some vid) d.publishedAt style with
        | .error e =>
          .ok (.failure (d.video_id.getD (pstr "unknown")) e.toStr (pstr "processing_error"))
        | .ok (processed, _attempts) =>
          .ok (.success vid (d.title.getD (pstr "Unknown Title"))
            (d.channel_name.getD (pstr "Unknown Channel")) d.publishedAt
            (processed.getS (fun r => r.formatted_text))
            (processed.getS (fun r => r.summary))
            (processed.getL (fun r => r.tags))
            (processed.getL (fun r => r.key_points))
            txt style
            (processed.getL (fun r => r.research_implications))
            (processed.getL (fun r => r.code_snippets))
            (processed.getL (fun r => r.technical_concepts))
            (processed.getL (fun r => r.market_insights))
            (processed.getL (fun r => r.strategic_implications)))

/-- `batch_process_transcripts(transcripts, style)`: validation pass
(appending `validation_error` entries without excluding the inputs),
sort of the FULL input list by `get_date` descending, then the
processing loop over the sorted list; an exception from the sort or
from a non-dict input propagates out (`raise` in the outer handler).
`processLoop` is the per-item loop body over the (already sorted)
inputs. -/
def processLoop (jsonLoads : JsonLoads) (llm : Llm) (style : Str) :
    List BatchInput → Except Str (List BatchEntry)
  | [] => .ok []
  | t :: ts =>
    match processItem jsonLoads llm style t with
    | .error e => .error e
    | .ok entry =>
      match processLoop jsonLoads llm style ts with
      | .error e => .error e
      | .ok entries => .ok (entry :: entries)

/-- `batch_process_transcripts(transcripts, style)`: validation pass
(appending `validation_error` entries without excluding the inputs),
sort of the FULL input list by `get_date` descending, then the
processing loop over the sorted list; an exception from the sort or
from a non-dict input propagates out (`raise` in the outer handler). -/
def batch_process_transcripts (jsonLoads : JsonLoads) (llm : Llm)
    (transcripts : List BatchInput) (style : Str) : Except Str (List BatchEntry) :=
  match validationPass transcripts with
  | .error e => .error e
  | .ok valEntries =>
    match pySortedDesc get_date transcripts with
    | .error e => .error e
    | .ok sortedTranscripts =>
      match processLoop jsonLoads llm style sortedTranscripts with
      | .error e => .error e
      | .ok procEntries => .ok (valEntries ++ procEntries)

/-! ## Shared helpers for the claim theorems -/

/-- Whether an `Except` value is an error. -/
def exceptIsErr : Except Str α → Bool
  | .error _ => true
  | .ok _ => false

/-- A concrete strict decoder that always fails (for concrete runs in
which the model output is not valid structured text). -/
def jlNone : JsonLoads := fun _ => none

/-- A concrete strict decoder that accepts exactly the marker text
`GOOD` (standing for one fixed well-formed model output). -/
def goodResponse : Response :=
  { formatted_text := some (pstr "Formatted output.")
    summary := some (pstr "A summary.")
    tags := some [pstr "tag1"]
    key_points := some [pstr "point1"] }

/-- Decoder accepting exactly the marker raw text `GOOD`. -/
def jlGood : JsonLoads := fun s => if s = pstr "GOOD" then some goodResponse else none

/-- A concrete LLM collaborator that always raises. -/
def llmRaise : Llm := fun _ _ => .error (.other (pstr "server error"))

/-- A concrete LLM collaborator that always answers `GOOD`. -/
def llmGood : Llm := fun _ _ => .ok (pstr "GOOD")

/-- Scenario D of the specification: the LLM raises a transient server
error on the first two attempts and succeeds on the third. -/
def llmTransient : Llm := fun i _ =>
  if i < 2 then .error (.other (pstr "server error")) else .ok (pstr "GOOD")

/-- Decidable equality on `Except`, for evaluating the concrete runs. -/
instance instDecEqExcept [DecidableEq ε] [DecidableEq α] : DecidableEq (Except ε α) := fun a b =>
  match a, b with
  | .error e1, .error e2 =>
    if h : e1 = e2 then .isTrue (by rw [h]) else .isFalse (by intro hc; cases hc; exact h rfl)
  | .ok v1, .ok v2 =>
    if h : v1 = v2 then .isTrue (by rw [h]) else .isFalse (by intro hc; cases hc; exact h rfl)
  | .error _, .ok _ => .isFalse (by intro hc; cases hc)
  | .ok _, .error _ => .isFalse (by intro hc; cases hc)

/-! ## Claim theorems -/

/-- C1 (code evaluation at the failing input): a batch with one dict
input missing `transcript` yields TWO result entries — the
`validation_error` entry from the validation pass and, because the
invalid input is not excluded from the processing loop, a second
`processing_error` entry from the `KeyError` — so the result count
exceeds the input count, contradicting the claim's one-entry-per-input
and exclusion guarantees. -/
theorem c1_invalid_input_double_entry :
    batch_process_transcripts jlNone llmRaise
        [.dict { video_id := some (pstr "v1") }] (pstr "default")
      = .ok [.failure (pstr "v1") (pstr "Missing required fields") (pstr "validation_error"),
             .failure (pstr "v1") ((PyErr.keyError (pstr "transcript")).toStr)
               (pstr "processing_error")] ∧
    (2 : Nat) ≠ 1 := by
  exact ⟨by decide, by decide⟩

/-- C2 (code evaluation at the failing input): a valid input whose
single-item processing fails (blank transcript, so `process_transcript`
returns a failure dict) is reported by `batch_process_transcripts` as a
`success: True` entry with empty content fields, because the loop never
inspects the returned dict's `success` flag — contradicting the claim
that a per-item failure is never reported as a success record. -/
theorem c2_failure_reported_as_success :
    process_transcript_once jlNone (llmRaise 0) (pstr "   ") none (some (pstr "v1")) none
        (pstr "default")
      = .failure { video_id := some (pstr "v1"),
                   error := pstr "Invalid transcript text provided",
                   error_type := pstr "processing_error" } ∧
    batch_process_transcripts jlNone llmRaise
        [.dict { video_id := some (pstr "v1"), transcript := some (pstr "   ") }] (pstr "default")
      = .ok [.success (pstr "v1") (pstr "Unknown Title") (pstr "Unknown Channel") none
             [] [] [] [] (pstr "   ") (pstr "default") [] [] [] [] []] := by
  exact ⟨by decide, by decide⟩

/-- C3 (counterexample): for a blank transcript the failure record's
`error_kind` is `processing_error`, not `validation_error` as the claim
states — the single `except` branch of `process_transcript` labels
every failure `processing_error`. -/
theorem c3_blank_transcript_not_validation_error :
    process_transcript jlNone llmRaise (pstr " ") none (some (pstr "v1")) none (pstr "default")
      = .ok (.failure { video_id := some (pstr "v1"),
                        error := pstr "Invalid transcript text provided",
                        error_type := pstr "processing_error" }, 1) ∧
    pstr "processing_error" ≠ pstr "validation_error" := by
  exact ⟨by decide, by decide⟩

/-- C3 (amended): `process` never raises past its own boundary — the
decorated call always returns the body's result after exactly one
attempt — and every failure record it returns carries `error_kind`
`processing_error` (also for a blank transcript or a validation
failure; `validation_error` is never produced by the single-item
processor). -/
theorem c3_never_raises_processing_error_only
    (jsonLoads : JsonLoads) (llm : Llm) (transcript_text : Str)
    (video_title video_id publish_date : Option Str) (style : Str) :
    process_transcript jsonLoads llm transcript_text video_title video_id publish_date style
      = .ok (process_transcript_once jsonLoads (llm 0) transcript_text
          video_title video_id publish_date style, 1) ∧
    ∀ f, process_transcript_once jsonLoads (llm 0) transcript_text
          video_title video_id publish_date style = .failure f →
      f.error_type = pstr "processing_error" := by
  constructor
  · rfl
  · intro f hf
    simp only [process_transcript_once] at hf
    split at hf
    · injection hf with h
      rw [← h]
    · split at hf
      · injection hf with h
        rw [← h]
      · split at hf
        · injection hf with h
          rw [← h]
        · split at hf
          · injection hf with h
            rw [← h]
          · exact absurd hf (by simp)

/-- C3 (witness): the amended theorem applied at one concrete input
with a blank transcript. -/
theorem c3_never_raises_processing_error_only_witness :
    process_transcript jlNone llmRaise (pstr "  ") none none none (pstr "default")
      = .ok (process_transcript_once jlNone (llmRaise 0) (pstr "  ") none none none
          (pstr "default"), 1) ∧
    ∀ f, process_transcript_once jlNone (llmRaise 0) (pstr "  ") none none none
          (pstr "default") = .failure f →
      f.error_type = pstr "processing_error" :=
  c3_never_raises_processing_error_only jlNone llmRaise (pstr "  ") none none none
    (pstr "default")

/-- C4 (code evaluation at the failing input): with an LLM collaborator
that raises a transient server error on the first two attempts and
succeeds on the third (scenario D), the decorated `process_transcript`
makes exactly ONE attempt and returns a `processing_error` failure —
the internal catch-all converts the first exception into a return
value before the backoff decorator can see it, so the configured retry
(MAX_RETRIES = 3, KeyError never retried) is dead code. -/
theorem c4_no_retry_single_attempt :
    MAX_RETRIES = 3 ∧
    process_transcript jlGood llmTransient (pstr "hello world") none (some (pstr "v1")) none
        (pstr "default")
      = .ok (.failure { video_id := some (pstr "v1"),
                        error := pstr "server error",
                        error_type := pstr "processing_error" }, 1) := by
  exact ⟨rfl, by decide⟩

/-- C5 (code evaluation at the failing input): the user message sent to
the completion service is the bare `transcript_text`; the context
preamble (title, published date, video id, `Transcript:` marker) is
built into `full_text` but `full_text` is never sent, so for an input
with metadata the text the claim says is sent differs from the text
actually sent. -/
theorem c5_user_message_without_context :
    build_messages (get_template (pstr "default")) (pstr "hello world")
      = [{ role := pstr "system", content := .systemPrompt .defaultP },
         { role := pstr "user", content := .userText (pstr "hello world") }] ∧
    build_context (some (pstr "My Video")) (some (pstr "2024-01-01T00:00:00Z"))
        (some (pstr "v1")) ++ pstr "hello world"
      ≠ pstr "hello world" := by
  exact ⟨by decide, by decide⟩

/-- C6: `clean_and_transform_response` returns the strict decode when
the raw text is valid structured text (tier 1); otherwise, when the
tier-2 cleanup (strip code fences, coerce single quotes) makes it
decodable, it returns that decode; and it fails with a parse error
exactly when both decodes fail AND every field of the tier-3 regex
extraction is empty. -/
theorem c6_normalize_tiers (jsonLoads : JsonLoads) (raw : Str) :
    (∀ r, jsonLoads raw = some r → clean_and_transform_response jsonLoads raw = .ok r) ∧
    (jsonLoads raw = none → ∀ r, jsonLoads (tier2_clean raw) = some r →
      clean_and_transform_response jsonLoads raw = .ok r) ∧
    (exceptIsErr (clean_and_transform_response jsonLoads raw) = true ↔
      (jsonLoads raw = none ∧ jsonLoads (tier2_clean raw) = none ∧
        extractedAllEmpty (tier3_extract raw) = true)) := by
  refine ⟨?_, ?_, ?_⟩
  · intro r h1
    simp [clean_and_transform_response, h1]
  · intro h1 r h2
    simp [clean_and_transform_response, h1, h2]
  · cases h1 : jsonLoads raw with
    | some r => simp [clean_and_transform_response, h1, exceptIsErr]
    | none =>
      cases h2 : jsonLoads (tier2_clean raw) with
      | some r => simp [clean_and_transform_response, h1, h2, exceptIsErr]
      | none =>
        by_cases h3 : extractedAllEmpty (tier3_extract raw) = true
        · simp [clean_and_transform_response, h1, h2, h3, exceptIsErr]
        · simp [clean_and_transform_response, h1, h2, h3, exceptIsErr]

/-- C6 (witness): tier 1 on a decodable marker text, and the parse
error on a text from which nothing can be extracted. -/
theorem c6_normalize_tiers_witness :
    clean_and_transform_response jlGood (pstr "GOOD") = .ok goodResponse ∧
    exceptIsErr (clean_and_transform_response jlNone (pstr "????")) = true :=
  ⟨(c6_normalize_tiers jlGood (pstr "GOOD")).1 goodResponse (by decide),
   (c6_normalize_tiers jlNone (pstr "????")).2.2.mpr (by decide)⟩

/-- C9: `validate_response` fails exactly when `formatted_text` is
missing/empty, or equals the original input text verbatim, or any of
`summary`, `tags`, `key_points` is missing/empty; in particular, for
any non-empty original input it rejects every response whose
`formatted_text` equals the original input. -/
theorem c9_validate_fails_iff :
    (∀ (input_text : Str) (r : Response),
      exceptIsErr (validate_response input_text r) = true ↔
        (truthyS r.formatted_text = false ∨ r.formatted_text = some input_text ∨
         truthyS r.summary = false ∨ truthyL r.tags = false ∨
         truthyL r.key_points = false)) ∧
    (∀ (input_text : Str) (r : Response), input_text ≠ [] →
      r.formatted_text = some input_text →
      exceptIsErr (validate_response input_text r) = true) := by
  have main : ∀ (input_text : Str) (r : Response),
      exceptIsErr (validate_response input_text r) = true ↔
        (truthyS r.formatted_text = false ∨ r.formatted_text = some input_text ∨
         truthyS r.summary = false ∨ truthyL r.tags = false ∨
         truthyL r.key_points = false) := by
    intro input r
    by_cases h1 : truthyS r.formatted_text = true
    · by_cases h2 : r.formatted_text = some input
      · have herr : exceptIsErr (validate_response input r) = true := by
          unfold validate_response
          rw [h2]
          split
          · rfl
          · simp [exceptIsErr]
        rw [herr]
        simp [h2]
      · by_cases hm : metadataFound (r.formatted_text.getD []) = true <;>
          by_cases h3 : truthyS r.summary = true <;>
          by_cases h4 : truthyL r.tags = true <;>
          by_cases h5 : truthyL r.key_points = true <;>
          simp [validate_response, h1, h2, hm, h3, h4, h5, exceptIsErr]
    · have h1f : truthyS r.formatted_text = false := by
        cases hb : truthyS r.formatted_text
        · rfl
        · exact absurd hb h1
      simp [validate_response, h1f, exceptIsErr]
  refine ⟨main, ?_⟩
  intro input r _hne hft
  exact (main input r).mpr (Or.inr (Or.inl hft))

/-- C9 (witness): a concrete response whose `formatted_text` equals the
non-empty input is rejected. -/
theorem c9_validate_fails_iff_witness :
    exceptIsErr (validate_response (pstr "same text")
      { formatted_text := some (pstr "same text"),
        summary := some (pstr "s"), tags := some [pstr "t"],
        key_points := some [pstr "k"] }) = true :=
  c9_validate_fails_iff.2 (pstr "same text") _ (by decide) rfl

/-! ## String lemmas for C7 and C10 -/

/-- The text `clean_metadata_from_text` produces when it recognises no
section at all. -/
def emptySkeleton : Str :=
  pstr "1. Summary:\n\n\n2. Tags:\n\n\n3. Key Points:\n\n\n4. Formatted Transcript:"

theorem lstrip_cons_of_not_space {c : Char} (h : isPySpace c = false) (l : Str) :
    lstripL (c :: l) = c :: l := by
  simp [lstripL, List.dropWhile_cons, h]

theorem rstrip_append_not_space {c : Char} (h : isPySpace c = false) (l : Str) :
    rstripL (l ++ [c]) = l ++ [c] := by
  simp [rstripL, List.dropWhile_cons, h]

theorem rstrip_append_space {c : Char} (h : isPySpace c = true) (l : Str) :
    rstripL (l ++ [c]) = rstripL l := by
  simp [rstripL, List.dropWhile_cons, h]

theorem dropWhile_head_false (p : Char → Bool) :
    ∀ (l : Str) (c : Char) (t : Str), l.dropWhile p = c :: t → p c = false
  | [], c, t => by simp [List.dropWhile]
  | a :: l, c, t => by
    by_cases hpa : p a = true
    · simp only [List.dropWhile, hpa]
      exact dropWhile_head_false p l c t
    · have hpa2 : p a = false := by
        cases hb : p a
        · rfl
        · exact absurd hb hpa
      simp only [List.dropWhile, hpa2]
      intro h
      cases h
      exact hpa2

theorem rstrip_shape (z : Str) (h : rstripL z ≠ []) :
    ∃ g c, rstripL z = g ++ [c] ∧ isPySpace c = false := by
  unfold rstripL at *
  cases hw : z.reverse.dropWhile isPySpace with
  | nil => rw [hw] at h; exact absurd rfl h
  | cons c t =>
    refine ⟨t.reverse, c, ?_, dropWhile_head_false isPySpace z.reverse c t hw⟩
    simp

theorem pyStrip_shape (z : Str) (h : pyStrip z ≠ []) :
    ∃ g c, pyStrip z = g ++ [c] ∧ isPySpace c = false :=
  rstrip_shape (lstripL z) h

theorem clean_transcript_content_shape (t : Str)
    (h : clean_transcript_content t ≠ []) :
    ∃ g c, clean_transcript_content t = g ++ [c] ∧ isPySpace c = false := by
  by_cases ht : t = []
  · subst ht
    simp [clean_transcript_content] at h
  · unfold clean_transcript_content at h ⊢
    rw [if_neg ht] at h ⊢
    exact pyStrip_shape _ h

set_option maxHeartbeats 4000000 in
/-- C7 (counterexample): metadata stripping is not idempotent.  On this
input the first pass removes the `[Music]` marker, which uncovers a new
`Transcriber:` line that only the second pass removes, so the second
application changes the text again. -/
theorem c7_not_idempotent_counterexample :
    clean_metadata_from_text (clean_metadata_from_text
        (pstr "1. Summary:\nS\n2. Tags:\nT\n3. Key Points:\nK\n4. Formatted Transcript:\nTran[Music]scriber: hi\nok"))
      ≠ clean_metadata_from_text
        (pstr "1. Summary:\nS\n2. Tags:\nT\n3. Key Points:\nK\n4. Formatted Transcript:\nTran[Music]scriber: hi\nok") := by
  decide

set_option maxHeartbeats 4000000 in
/-- C7 (amended): metadata stripping is idempotent on every input in
which it recognises none of the four numbered sections — such inputs
are rewritten to the fixed empty skeleton, which is a fixed point.  (In
general a second application can strip further, as the counterexample
shows.) -/
theorem c7_idempotent_on_sectionless (x : Str)
    (h : identify_sections x = ⟨[], [], [], []⟩) :
    clean_metadata_from_text (clean_metadata_from_text x) = clean_metadata_from_text x := by
  by_cases hx : x = []
  · subst hx
    rfl
  · have h1 : clean_metadata_from_text x = emptySkeleton := by
      unfold clean_metadata_from_text
      rw [if_neg hx, h]
      decide
    rw [h1]
    decide

set_option maxHeartbeats 4000000 in
/-- C7 (witness): the amended theorem applied to one concrete
section-free input. -/
theorem c7_idempotent_on_sectionless_witness :
    clean_metadata_from_text (clean_metadata_from_text (pstr "plain text, no sections"))
      = clean_metadata_from_text (pstr "plain text, no sections") :=
  c7_idempotent_on_sectionless (pstr "plain text, no sections") (by decide)

/-- The formatted-transcript section after the conditional cleaning
step inside `clean_metadata_from_text`. -/
def cleanedF (x : Str) : Str :=
  if (identify_sections x).formatted_text ≠ [] then
    clean_transcript_content (identify_sections x).formatted_text
  else (identify_sections x).formatted_text

theorem cleanedF_shape (x : Str) (h : cleanedF x ≠ []) :
    ∃ g c, cleanedF x = g ++ [c] ∧ isPySpace c = false := by
  by_cases hft : (identify_sections x).formatted_text ≠ []
  · unfold cleanedF at h ⊢
    rw [if_pos hft] at h ⊢
    exact clean_transcript_content_shape _ h
  · exact absurd (by unfold cleanedF; rw [if_neg hft]; simpa using hft) h

/-- C10: for every non-empty input, `clean_metadata_from_text` rebuilds
the text into the fixed skeleton — `1. Summary:` followed by the
recognised summary section, then the `2. Tags:`, `3. Key Points:` and
`4. Formatted Transcript:` headers with their recognised (and, for the
transcript, cleaned) sections — so the output starts with
`1. Summary:`, carries the four headers in that order, and contains no
input content outside the four recognised sections. -/
theorem c10_fixed_skeleton (x : Str) (hx : x ≠ []) :
    clean_metadata_from_text x =
      pstr "1. Summary:\n" ++ (identify_sections x).summary ++
      pstr "\n\n2. Tags:\n" ++ (identify_sections x).tags ++
      pstr "\n\n3. Key Points:\n" ++ (identify_sections x).key_points ++
      pstr "\n\n4. Formatted Transcript:" ++
      (if cleanedF x = [] then [] else '\n' :: cleanedF x) ∧
    ∃ t, clean_metadata_from_text x = pstr "1. Summary:" ++ t := by
  set S := (identify_sections x).summary with hSdef
  set T := (identify_sections x).tags with hTdef
  set K := (identify_sections x).key_points with hKdef
  set F := cleanedF x with hFdef
  have hmain : clean_metadata_from_text x = pyStrip (joinSections S T K F) := by
    rw [hSdef, hTdef, hKdef, hFdef]
    unfold clean_metadata_from_text cleanedF
    rw [if_neg hx]
  have hjoin : joinSections S T K F =
      pstr "1. Summary:\n" ++ S ++ pstr "\n\n2. Tags:\n" ++ T ++
      pstr "\n\n3. Key Points:\n" ++ K ++
      pstr "\n\n4. Formatted Transcript:" ++ (pstr "\n" ++ F) := by
    have hsplit : pstr "\n\n4. Formatted Transcript:\n"
        = pstr "\n\n4. Formatted Transcript:" ++ pstr "\n" := by decide
    unfold joinSections
    rw [hsplit]
    simp [List.append_assoc]
  have hhead : ∀ u : Str,
      lstripL (pstr "1. Summary:\n" ++ S ++ pstr "\n\n2. Tags:\n" ++ T ++
        pstr "\n\n3. Key Points:\n" ++ K ++
        pstr "\n\n4. Formatted Transcript:" ++ u)
      = pstr "1. Summary:\n" ++ S ++ pstr "\n\n2. Tags:\n" ++ T ++
        pstr "\n\n3. Key Points:\n" ++ K ++
        pstr "\n\n4. Formatted Transcript:" ++ u := by
    intro u
    have hhd : pstr "1. Summary:\n" = '1' :: pstr ". Summary:\n" := rfl
    rw [hhd]
    simp only [List.cons_append]
    rw [lstrip_cons_of_not_space (by decide)]
  have hcolon : pstr "\n\n4. Formatted Transcript:"
      = pstr "\n\n4. Formatted Transcript" ++ [':'] := by decide
  have hmaineq : clean_metadata_from_text x =
      pstr "1. Summary:\n" ++ S ++ pstr "\n\n2. Tags:\n" ++ T ++
      pstr "\n\n3. Key Points:\n" ++ K ++
      pstr "\n\n4. Formatted Transcript:" ++
      (if F = [] then [] else '\n' :: F) := by
    rw [hmain, hjoin]
    unfold pyStrip
    rw [hhead]
    by_cases hF : F = []
    · rw [hF]
      have e1 : pstr "\n" ++ ([] : Str) = ['\n'] := by decide
      rw [e1, if_pos rfl]
      calc
        rstripL (pstr "1. Summary:\n" ++ S ++ pstr "\n\n2. Tags:\n" ++ T ++
            pstr "\n\n3. Key Points:\n" ++ K ++
            pstr "\n\n4. Formatted Transcript:" ++ ['\n'])
            = rstripL (pstr "1. Summary:\n" ++ S ++ pstr "\n\n2. Tags:\n" ++ T ++
              pstr "\n\n3. Key Points:\n" ++ K ++
              pstr "\n\n4. Formatted Transcript:") := by
              rw [rstrip_append_space (by decide)]
        _ = (pstr "1. Summary:\n" ++ S ++ pstr "\n\n2. Tags:\n" ++ T ++
              pstr "\n\n3. Key Points:\n" ++ K ++
              pstr "\n\n4. Formatted Transcript") ++ [':'] := by
              rw [hcolon, ← List.append_assoc]
              rw [rstrip_append_not_space (by decide)]
        _ = pstr "1. Summary:\n" ++ S ++ pstr "\n\n2. Tags:\n" ++ T ++
              pstr "\n\n3. Key Points:\n" ++ K ++
              pstr "\n\n4. Formatted Transcript:" ++ [] := by
              rw [hcolon]
              simp
    · obtain ⟨g, c, hgc, hc⟩ := cleanedF_shape x (by rw [← hFdef]; exact hF)
      rw [← hFdef] at hgc
      rw [if_neg hF, hgc]
      have e2 : pstr "\n" ++ (g ++ [c]) = ('\n' :: g) ++ [c] := by
        simp [pstr]
      rw [e2, ← List.append_assoc]
      rw [rstrip_append_not_space hc]
      simp [List.append_assoc]
  refine ⟨hmaineq, ?_⟩
  refine ⟨'\n' :: (S ++ pstr "\n\n2. Tags:\n" ++ T ++
    pstr "\n\n3. Key Points:\n" ++ K ++ pstr "\n\n4. Formatted Transcript:" ++
    (if F = [] then [] else '\n' :: F)), ?_⟩
  rw [hmaineq]
  have hhd2 : pstr "1. Summary:\n" = pstr "1. Summary:" ++ ['\n'] := by decide
  rw [hhd2]
  simp [List.append_assoc]

/-- C10 (witness): the skeleton equation applied to one concrete
non-empty input. -/
theorem c10_fixed_skeleton_witness :
    clean_metadata_from_text (pstr "z") =
      pstr "1. Summary:\n" ++ (identify_sections (pstr "z")).summary ++
      pstr "\n\n2. Tags:\n" ++ (identify_sections (pstr "z")).tags ++
      pstr "\n\n3. Key Points:\n" ++ (identify_sections (pstr "z")).key_points ++
      pstr "\n\n4. Formatted Transcript:" ++
      (if cleanedF (pstr "z") = [] then [] else '\n' :: cleanedF (pstr "z")) ∧
    ∃ t, clean_metadata_from_text (pstr "z") = pstr "1. Summary:" ++ t :=
  c10_fixed_skeleton (pstr "z") (by decide)

/-! ## Sorting lemmas for C8 -/

/-- Whether a datetime is offset-aware. -/
def awareness (dt : PyDateTime) : Bool := dt.tzSeconds.isSome

theorem pyLtDt_of_sameAwareness {a b : PyDateTime}
    (h : awareness a = awareness b) :
    pyLtDt a b = .ok (dtLtPure a b) := by
  unfold awareness at h
  unfold pyLtDt
  cases ha : a.tzSeconds <;> cases hb : b.tzSeconds <;> simp_all

theorem lexLtNat_asymm : ∀ (a b : List Nat), lexLtNat a b = true → lexLtNat b a = false
  | [], [], h => by simp [lexLtNat] at h ⊢
  | [], _ :: _, _ => by simp [lexLtNat]
  | _ :: _, [], h => by simp [lexLtNat] at h
  | a :: as, b :: bs, h => by
    simp only [lexLtNat, Bool.or_eq_true, Bool.and_eq_true, decide_eq_true_eq] at h
    cases hlb : lexLtNat (b :: bs) (a :: as)
    · rfl
    · exfalso
      simp only [lexLtNat, Bool.or_eq_true, Bool.and_eq_true, decide_eq_true_eq] at hlb
      rcases h with h1 | ⟨h2, h3⟩ <;> rcases hlb with hb1 | ⟨hb2, hb3⟩
      · omega
      · omega
      · omega
      · rw [lexLtNat_asymm as bs h3] at hb3
        cases hb3

theorem lexLtNat_trans : ∀ (a b c : List Nat),
    lexLtNat a b = true → lexLtNat b c = true → lexLtNat a c = true
  | [], [], _, h1, _ => by simp [lexLtNat] at h1
  | [], _ :: _, [], _, h2 => by simp [lexLtNat] at h2
  | [], _ :: _, _ :: _, _, _ => by simp [lexLtNat]
  | _ :: _, [], _, h1, _ => by simp [lexLtNat] at h1
  | _ :: _, _ :: _, [], _, h2 => by simp [lexLtNat] at h2
  | a :: as, b :: bs, c :: cs, h1, h2 => by
    simp only [lexLtNat, Bool.or_eq_true, Bool.and_eq_true, decide_eq_true_eq] at h1 h2 ⊢
    rcases h1 with h1 | ⟨h1e, h1r⟩ <;> rcases h2 with h2 | ⟨h2e, h2r⟩
    · exact Or.inl (by omega)
    · exact Or.inl (by omega)
    · exact Or.inl (by omega)
    · exact Or.inr ⟨by omega, lexLtNat_trans as bs cs h1r h2r⟩

theorem dtLtPure_asymm (a b : PyDateTime) :
    dtLtPure a b = true → dtLtPure b a = false := by
  unfold dtLtPure
  cases ha : a.tzSeconds <;> cases hb : b.tzSeconds <;> intro h
  · exact lexLtNat_asymm _ _ h
  · simp at h
  · simp at h
  · simp at h ⊢
    omega

theorem dtLtPure_trans (a b c : PyDateTime) :
    dtLtPure a b = true → dtLtPure b c = true → dtLtPure a c = true := by
  unfold dtLtPure
  cases ha : a.tzSeconds <;> cases hb : b.tzSeconds <;> cases hc : c.tzSeconds <;>
    intro h1 h2 <;> try simp_all
  · exact lexLtNat_trans _ _ _ h1 h2
  · omega

theorem insortAscP_perm (lt : α → α → Bool) (x : α) :
    ∀ (l : List α), List.Perm (insortAscP lt x l) (x :: l)
  | [] => List.Perm.refl _
  | y :: ys => by
    unfold insortAscP
    split
    · exact List.Perm.refl _
    · exact ((insortAscP_perm lt x ys).cons y).trans (List.Perm.swap x y ys)

theorem sortAscGoP_perm (lt : α → α → Bool) :
    ∀ (xs acc : List α), List.Perm (sortAscGoP lt acc xs) (acc ++ xs)
  | [], acc => by simp [sortAscGoP]
  | x :: xs, acc => by
    unfold sortAscGoP
    have h1 := sortAscGoP_perm lt xs (insortAscP lt x acc)
    have h2 : List.Perm (insortAscP lt x acc ++ xs) ((x :: acc) ++ xs) :=
      (insortAscP_perm lt x acc).append_right xs
    have h3 : List.Perm ((x :: acc) ++ xs) (acc ++ x :: xs) := by
      simp only [List.cons_append]
      exact List.perm_middle.symm
    exact (h1.trans h2).trans h3

theorem insortAscP_pairwise {lt : α → α → Bool}
    (hasym : ∀ a b, lt a b = true → lt b a = false)
    (htrans : ∀ a b c, lt a b = true → lt b c = true → lt a c = true)
    (x : α) :
    ∀ (l : List α), List.Pairwise (fun a b => lt b a = false) l →
      List.Pairwise (fun a b => lt b a = false) (insortAscP lt x l)
  | [], _ => by simp [insortAscP]
  | y :: ys, hl => by
    unfold insortAscP
    rcases List.pairwise_cons.mp hl with ⟨hy, hys⟩
    split
    · rename_i hlt
      refine List.pairwise_cons.mpr ⟨?_, hl⟩
      intro z hz
      rcases List.mem_cons.mp hz with hz1 | hz1
      · subst hz1
        exact hasym x z hlt
      · by_cases hzx : lt z x = true
        · have hzy : lt z y = true := htrans z x y hzx hlt
          rw [hy z hz1] at hzy
          cases hzy
        · cases hb : lt z x
          · rfl
          · exact absurd hb hzx
    · rename_i hnlt
      refine List.pairwise_cons.mpr ⟨?_, insortAscP_pairwise hasym htrans x ys hys⟩
      intro z hz
      rcases List.mem_cons.mp ((insortAscP_perm lt x ys).mem_iff.mp hz) with hz1 | hz1
      · subst hz1
        cases hb : lt z y
        · rfl
        · exact absurd hb (by simpa using hnlt)
      · exact hy z hz1

theorem sortAscGoP_pairwise {lt : α → α → Bool}
    (hasym : ∀ a b, lt a b = true → lt b a = false)
    (htrans : ∀ a b c, lt a b = true → lt b c = true → lt a c = true) :
    ∀ (xs acc : List α), List.Pairwise (fun a b => lt b a = false) acc →
      List.Pairwise (fun a b => lt b a = false) (sortAscGoP lt acc xs)
  | [], acc, hacc => hacc
  | x :: xs, acc, hacc =>
    sortAscGoP_pairwise hasym htrans xs (insortAscP lt x acc)
      (insortAscP_pairwise hasym htrans x acc hacc)

theorem insortAsc_ok (k : α → PyDateTime) (flag : Bool) (x : α)
    (hx : awareness (k x) = flag) :
    ∀ (l : List α), (∀ y ∈ l, awareness (k y) = flag) →
      insortAsc k x l = .ok (insortAscP (fun a b => dtLtPure (k a) (k b)) x l)
  | [], _ => rfl
  | y :: ys, hl => by
    have hy : awareness (k x) = awareness (k y) := by
      rw [hx, hl y (List.mem_cons_self y ys)]
    unfold insortAsc insortAscP
    rw [pyLtDt_of_sameAwareness hy]
    cases hb : dtLtPure (k x) (k y)
    · simp only [Bool.false_eq_true, if_false]
      rw [insortAsc_ok k flag x hx ys (fun z hz => hl z (List.mem_cons_of_mem y hz))]
    · simp

theorem sortAscGo_ok (k : α → PyDateTime) (flag : Bool) :
    ∀ (xs acc : List α), (∀ y ∈ acc, awareness (k y) = flag) →
      (∀ y ∈ xs, awareness (k y) = flag) →
      sortAscGo k acc xs = .ok (sortAscGoP (fun a b => dtLtPure (k a) (k b)) acc xs)
  | [], acc, _, _ => rfl
  | x :: xs, acc, hacc, hxs => by
    unfold sortAscGo sortAscGoP
    rw [insortAsc_ok k flag x (hxs x (List.mem_cons_self x xs)) acc hacc]
    exact sortAscGo_ok k flag xs _
      (fun y hy => by
        rcases List.mem_cons.mp ((insortAscP_perm _ x acc).mem_iff.mp hy) with hm | hm
        · subst hm
          exact hxs y (List.mem_cons_self y xs)
        · exact hacc y hm)
      (fun y hy => hxs y (List.mem_cons_of_mem x hy))

theorem pySortedDesc_ok (k : α → PyDateTime) (flag : Bool) (xs : List α)
    (h : ∀ y ∈ xs, awareness (k y) = flag) :
    pySortedDesc k xs = .ok (pySortedDescP (fun a b => dtLtPure (k a) (k b)) xs) := by
  unfold pySortedDesc pySortedDescP
  rw [sortAscGo_ok k flag xs.reverse [] (by simp)
    (fun y hy => h y (List.mem_reverse.mp hy))]

theorem pySortedDescP_perm (lt : α → α → Bool) (xs : List α) :
    List.Perm (pySortedDescP lt xs) xs := by
  unfold pySortedDescP
  have h2 : List.Perm (sortAscGoP lt [] xs.reverse) xs.reverse := by
    simpa using sortAscGoP_perm lt xs.reverse ([] : List α)
  have h3 : List.Perm (sortAscGoP lt [] xs.reverse).reverse (sortAscGoP lt [] xs.reverse) :=
    List.reverse_perm _
  exact h3.trans (h2.trans (List.reverse_perm xs))

theorem pySortedDescP_pairwise {lt : α → α → Bool}
    (hasym : ∀ a b, lt a b = true → lt b a = false)
    (htrans : ∀ a b c, lt a b = true → lt b c = true → lt a c = true)
    (xs : List α) :
    List.Pairwise (fun a b => lt a b = false) (pySortedDescP lt xs) := by
  unfold pySortedDescP
  rw [List.pairwise_reverse]
  exact sortAscGoP_pairwise hasym htrans xs.reverse [] (by simp)

theorem validationPass_no_nonDict :
    ∀ (ts : List BatchInput) (v : List BatchEntry), validationPass ts = .ok v →
      ∀ t ∈ ts, t ≠ BatchInput.nonDict
  | [], _, _, t, ht => by cases ht
  | .nonDict :: rest, v, h, t, ht => by
    simp [validationPass] at h
  | .dict d :: rest, v, h, t, ht => by
    rcases List.mem_cons.mp ht with h1 | h1
    · subst h1
      simp
    · simp only [validationPass] at h
      cases hrest : validationPass rest with
      | error e =>
        rw [hrest] at h
        exact Except.noConfusion h
      | ok tail => exact validationPass_no_nonDict rest tail hrest t h1

theorem processItem_dict_ok (jsonLoads : JsonLoads) (llm : Llm) (style : Str) (d : TDict) :
    ∃ e, processItem jsonLoads llm style (.dict d) = .ok e := by
  simp only [processItem]
  cases htr : d.transcript with
  | none => exact ⟨_, rfl⟩
  | some txt =>
    cases hvid : d.video_id with
    | none => exact ⟨_, rfl⟩
    | some vid =>
      cases hp : process_transcript jsonLoads llm txt d.title (some vid) d.publishedAt style with
      | error e => exact ⟨_, rfl⟩
      | ok pr =>
        obtain ⟨p1, p2⟩ := pr
        exact ⟨_, rfl⟩

theorem processLoop_ok (jsonLoads : JsonLoads) (llm : Llm) (style : Str) :
    ∀ (ts : List BatchInput), (∀ t ∈ ts, t ≠ BatchInput.nonDict) →
      ∃ es, processLoop jsonLoads llm style ts = .ok es
  | [], _ => ⟨[], rfl⟩
  | t :: ts, hts => by
    cases t with
    | nonDict => exact absurd rfl (hts _ (List.mem_cons_self _ _))
    | dict d =>
      obtain ⟨e, he⟩ := processItem_dict_ok jsonLoads llm style d
      obtain ⟨es, hes⟩ := processLoop_ok jsonLoads llm style ts
        (fun u hu => hts u (List.mem_cons_of_mem _ hu))
      exact ⟨e :: es, by unfold processLoop; rw [he, hes]⟩

/-- C8 (counterexample): a batch mixing an input with a missing
`published_at` (key `datetime.min`, offset-naive) and an input whose
`published_at` carries a `Z` timezone (parsed offset-aware) makes
`batch_process_transcripts` raise a comparison `TypeError` from the
sort — it returns no per-item results at all, contradicting the claim
that such inputs are ordered with the missing dates last. -/
theorem c8_mixed_awareness_batch_raises :
    batch_process_transcripts jlNone llmRaise
      [.dict { video_id := some (pstr "v1"), transcript := some (pstr "t1") },
       .dict { video_id := some (pstr "v2"), transcript := some (pstr "t2"),
               publishedAt := some (pstr "2024-01-02T00:00:00Z") }]
      (pstr "default")
    = .error (pstr "TypeError: cannot compare offset-naive and offset-aware datetimes") := by
  decide

/-- C8 (amended): whenever the batch validation pass succeeds and all
sort keys have the same timezone-awareness (all offset-naive or all
offset-aware — in particular when no `published_at` carries an offset),
the processing-pass results of `batch_process_transcripts` follow the
`published_at`-descending stable sort of the full input list: the
sorted list is a permutation of the inputs, pairwise non-ascending in
`get_date` (so inputs with missing or unparsable dates, whose key is
`datetime.min`, come last), and the batch result is the validation
entries followed by the per-item results in exactly that order.  When
awareness is mixed, the sort raises instead (see the counterexample). -/
theorem c8_sorted_descending (jsonLoads : JsonLoads) (llm : Llm)
    (ts : List BatchInput) (style : Str) (ves : List BatchEntry) (flag : Bool)
    (hv : validationPass ts = .ok ves)
    (hflag : ∀ t ∈ ts, awareness (get_date t) = flag) :
    ∃ sortedTs entries,
      pySortedDesc get_date ts = .ok sortedTs ∧
      List.Perm sortedTs ts ∧
      List.Pairwise (fun a b => dtLtPure (get_date a) (get_date b) = false) sortedTs ∧
      processLoop jsonLoads llm style sortedTs = .ok entries ∧
      batch_process_transcripts jsonLoads llm ts style = .ok (ves ++ entries) := by
  have hsort := pySortedDesc_ok get_date flag ts hflag
  have hperm := pySortedDescP_perm (fun a b => dtLtPure (get_date a) (get_date b)) ts
  have hpair := @pySortedDescP_pairwise _
    (fun a b => dtLtPure (get_date a) (get_date b))
    (fun a b => dtLtPure_asymm _ _) (fun a b c => dtLtPure_trans _ _ _) ts
  have hnd : ∀ t ∈ ts, t ≠ BatchInput.nonDict := validationPass_no_nonDict ts ves hv
  have hnd2 : ∀ t ∈ pySortedDescP (fun a b => dtLtPure (get_date a) (get_date b)) ts,
      t ≠ BatchInput.nonDict := fun t ht => hnd t (hperm.mem_iff.mp ht)
  obtain ⟨entries, hloop⟩ := processLoop_ok jsonLoads llm style _ hnd2
  refine ⟨_, entries, hsort, hperm, hpair, hloop, ?_⟩
  unfold batch_process_transcripts
  rw [hv, hsort]
  simp [hloop]

/-- C8 (witness): the amended theorem applied to a concrete two-input
batch with offset-naive dates, one of them missing. -/
theorem c8_sorted_descending_witness :
    ∃ sortedTs entries,
      pySortedDesc get_date
        [.dict { video_id := some (pstr "v1"), transcript := some (pstr "t1") },
         .dict { video_id := some (pstr "v2"), transcript := some (pstr "t2"),
                 publishedAt := some (pstr "2024-06-01T00:00:00") }] = .ok sortedTs ∧
      List.Perm sortedTs
        [.dict { video_id := some (pstr "v1"), transcript := some (pstr "t1") },
         .dict { video_id := some (pstr "v2"), transcript := some (pstr "t2"),
                 publishedAt := some (pstr "2024-06-01T00:00:00") }] ∧
      List.Pairwise (fun a b => dtLtPure (get_date a) (get_date b) = false) sortedTs ∧
      processLoop jlNone llmRaise (pstr "default") sortedTs = .ok entries ∧
      batch_process_transcripts jlNone llmRaise
        [.dict { video_id := some (pstr "v1"), transcript := some (pstr "t1") },
         .dict { video_id := some (pstr "v2"), transcript := some (pstr "t2"),
                 publishedAt := some (pstr "2024-06-01T00:00:00") }] (pstr "default")
        = .ok ([] ++ entries) :=
  c8_sorted_descending jlNone llmRaise
    [.dict { video_id := some (pstr "v1"), transcript := some (pstr "t1") },
     .dict { video_id := some (pstr "v2"), transcript := some (pstr "t2"),
             publishedAt := some (pstr "2024-06-01T00:00:00") }]
    (pstr "default") [] false (by decide) (by decide)
